import Mathlib

/-!
Verification development for the fessonia FFmpeg-command builder.

Shallow embedding of the repository's core components:
  * the filter model (FilterNode / FilterChain / FilterGraph, src/lib/filter_graph.js),
  * option construction and validation (FFmpegOption, src/lib/ffmpeg_option.js),
  * stream specifiers (src/lib/ffmpeg_stream_specifier.js),
  * outputs (src/lib/ffmpeg_output.js),
  * command rendering (src/lib/ffmpeg_command.js),
  * the progress stream parser (src/lib/ffmpeg_progress_emitter.js).

JavaScript dynamic values are embedded as inductive types; JS exceptions are
embedded as Except results; mutable object state is embedded as explicit state
passing.  FilterChain / FilterNode internals (filter_chain.js, filter_node.js)
are not part of the provided sources; the small pieces of their behaviour that
are needed (stringification, FilterChain.wrap) are modelled from the spec and
are marked as such in their doc comments.
-/

namespace Fessonia

/-! ## Filter model -/

/-- Modelled from the spec (filter_node.js absent from the sources): parameters
of a filter node are either an ordered key-value mapping or an ordered list of
positional values. -/
inductive FilterParams where
  | keyed (ps : List (String × String))
  | positional (vs : List String)
deriving DecidableEq, Repr

/-- Modelled from the spec (filter_node.js absent from the sources): a filter
node is a named filter invocation with ordered parameters. -/
structure FilterNode where
  name : String
  params : FilterParams
deriving DecidableEq, Repr

/-- Modelled from the spec (filter_node.js absent from the sources):
FilterNode.toString renders `name=k1=v1:k2=v2...` for keyed parameters and
`name=v1:v2...` for positional parameters, preserving parameter order. -/
def FilterNode.render (n : FilterNode) : String :=
  match n.params with
  | .keyed ps => n.name ++ "=" ++ String.intercalate ":" (ps.map (fun p => p.1 ++ "=" ++ p.2))
  | .positional vs => n.name ++ "=" ++ String.intercalate ":" vs

/-- Modelled from the spec (filter_chain.js absent from the sources): a filter
chain is an ordered sequence of filter nodes.  The mutable back-reference to
the owning graph (`chain.filterGraph`) is modelled separately as explicit
state (see `GraphsState` below); this structure is the value content. -/
structure FilterChain where
  nodes : List FilterNode
deriving DecidableEq, Repr

/-- Modelled from the spec (filter_chain.js absent from the sources):
FilterChain.toString comma-joins the node strings in order. -/
def FilterChain.render (c : FilterChain) : String :=
  String.intercalate "," (c.nodes.map FilterNode.render)

/-- Embeds src/lib/filter_graph.js: a filter graph holds an ordered list of
filter chains (`this.chains`). -/
structure FilterGraph where
  chains : List FilterChain
deriving DecidableEq, Repr

/-- Embeds FilterGraph.addFilterChain (src/lib/filter_graph.js lines 28-34),
value content only: `this.chains.push(chain)`.  The `chain.filterGraph = this`
back-reference assignment is modelled as explicit state in `GraphsState`
below; the dynamic instanceof guard is vacuous here because the argument is
typed. -/
def FilterGraph.addFilterChain (g : FilterGraph) (c : FilterChain) : FilterGraph :=
  ⟨g.chains ++ [c]⟩

/-- Embeds FilterGraph.toString (src/lib/filter_graph.js lines 49-54):
semicolon-joins the chain strings in order. -/
def FilterGraph.render (g : FilterGraph) : String :=
  String.intercalate ";" (g.chains.map FilterChain.render)

/-- A value handed to FilterGraph.wrap: a graph, a chain, a node, or any other
JavaScript value (the payload type α stands for arbitrary non-filter
values). -/
inductive WrapVal (α : Type) where
  | graph (g : FilterGraph)
  | chain (c : FilterChain)
  | node (n : FilterNode)
  | other (a : α)
deriving DecidableEq, Repr

/-- Modelled from the spec (filter_chain.js absent from the sources):
FilterChain.wrap passes a chain through unchanged and wraps a single node into
a one-node chain.  It is only ever called on chain-or-node arguments. -/
def FilterChain.wrap : FilterChain ⊕ FilterNode → FilterChain
  | .inl c => c
  | .inr n => ⟨[n]⟩

/-- Embeds FilterGraph.wrap (src/lib/filter_graph.js lines 62-72): a graph is
returned unchanged; a chain or node is wrapped via FilterChain.wrap into a
fresh single-chain graph; any other value passes through unchanged. -/
def FilterGraph.wrap {α : Type} : WrapVal α → WrapVal α
  | .graph g => .graph g
  | .chain c => .graph ((FilterGraph.mk []).addFilterChain (FilterChain.wrap (.inl c)))
  | .node n => .graph ((FilterGraph.mk []).addFilterChain (FilterChain.wrap (.inr n)))
  | .other a => .other a

/-! ## FFmpegOption (src/lib/ffmpeg_option.js) -/

/-- Embeds the FILTER_OPTIONS list (src/lib/ffmpeg_option.js lines 8-16). -/
def FILTER_OPTIONS : List String :=
  ["filter", "filter:v", "vf", "filter:a", "af", "filter_complex", "lavfi"]

/-- JavaScript values that can appear as an option argument.  `str` is a
primitive string, `null` / `undef` the two JS empty values, `num` an
integer-valued JS number, `graph` / `chain` / `node` the filter objects,
`arr` a JS Array and `kvmap` a JS Map (their contents are never inspected by
the embedded code), `stringable` any other object whose toString yields the
given string, and `bare` an object with no usable toString (such as
Object.create(null)). -/
inductive JSArg where
  | null
  | undef
  | bool (b : Bool)
  | str (s : String)
  | num (n : Int)
  | graph (g : FilterGraph)
  | chain (c : FilterChain)
  | node (n : FilterNode)
  | arr (elems : List String)
  | kvmap (entries : List (String × String))
  | stringable (s : String)
  | bare
deriving DecidableEq, Repr

/-- JS exceptions raised by the embedded code (message text elided). -/
inductive JSErr where
  | invalidArgument
  | invalidEntity
  | invalidSpecifier
  | typeError
deriving DecidableEq, Repr

/-- The result of `arg.toString()` for an option argument.  Only reachable for
arguments that passed validation with a usable string conversion; the `null`,
`undef`, `bool`, `arr`, `kvmap` and `bare` branches are unreachable in the
embedded call sites (validation rejects collections and bare objects, and the
null case is guarded before the call). -/
def JSArg.renderArg : JSArg → String
  | .null => "null"
  | .undef => "undefined"
  | .bool b => if b then "true" else "false"
  | .str s => s
  | .num n => toString n
  | .graph g => g.render
  | .chain c => c.render
  | .node n => n.render
  | .arr es => String.intercalate "," es
  | .kvmap _ => "[object Map]"
  | .stringable s => s
  | .bare => ""

/-- Injection of a JSArg into the domain of FilterGraph.wrap, forgetting the
payload of non-filter values. -/
def JSArg.toWrapVal : JSArg → WrapVal Unit
  | .graph g => .graph g
  | .chain c => .chain c
  | .node n => .node n
  | _ => .other ()

/-- The test `FilterGraph.wrap(arg) instanceof FilterGraph` from the
FFmpegOption constructor (src/lib/ffmpeg_option.js line 36). -/
def JSArg.wrapIsFilterGraph (a : JSArg) : Bool :=
  match FilterGraph.wrap a.toWrapVal with
  | .graph _ => true
  | _ => false

/-- Embeds FFmpegOption.validate (src/lib/ffmpeg_option.js lines 76-87).
Strings and null pass; Maps and Arrays raise InvalidArgument; any remaining
value must have a usable toString.  Accessing `.toString` on undefined raises
a TypeError in JS, embedded here as the `undef` case. -/
def optionValidate (_name : String) (arg : JSArg) : Except JSErr Unit :=
  match arg with
  | .str _ => .ok ()
  | .null => .ok ()
  | .arr _ => .error .invalidArgument
  | .kvmap _ => .error .invalidArgument
  | .undef => .error .typeError
  | .bare => .error .invalidArgument
  | _ => .ok ()

/-- An FFmpegOption after construction: the stored name, the rendered
`-name` token, and the stored argument. -/
structure FFmpegOption where
  name : String
  optionName : String
  arg : JSArg
deriving DecidableEq, Repr

/-- Embeds the FFmpegOption constructor (src/lib/ffmpeg_option.js lines
34-45): validate first; then normalize a filter-alias name to
`filter_complex` when the wrapped argument is a filter graph; then default an
undefined argument to null; then store name, `-name`, and the argument. -/
def FFmpegOption.make (name : String) (arg : JSArg) : Except JSErr FFmpegOption := do
  _ ← optionValidate name arg
  let name := if FILTER_OPTIONS.contains name && arg.wrapIsFilterGraph then "filter_complex" else name
  let arg := if arg = .undef then .null else arg
  .ok ⟨name, "-" ++ name, arg⟩

/-- Embeds FFmpegOption.toCommandArray (src/lib/ffmpeg_option.js lines
51-56): `[-name]` for a null argument, else `[-name, arg.toString()]`. -/
def FFmpegOption.toCommandArray (o : FFmpegOption) : List String :=
  if o.arg = .null then [o.optionName] else [o.optionName, o.arg.renderArg]

/-! ## FFmpegStreamSpecifier (src/lib/ffmpeg_stream_specifier.js) -/

/-- An entity used as a stream-specifier owner.  `tag` embeds the JS `type`
property (`none` = undefined); `inputLabel` embeds the label assigned when an
input is registered on a command; `getOutputPad` embeds the owner's pad
resolution method (defined in filter_chain.js, outside the provided sources,
hence kept abstract), whose failure is an Except error. -/
structure SSEntity where
  tag : Option String
  inputLabel : String
  getOutputPad : String → Except JSErr String

/-- Embeds FFmpegStreamSpecifier.toString (src/lib/ffmpeg_stream_specifier.js
lines 44-52) as a function of the stored entityType, entity and specifier:
`<inputLabel>:<specifier>` for an FFmpegInput owner,
`[<resolved pad>]` for a FilterChain owner (pad resolution may throw), and
the bare specifier for any other owner. -/
def specRender (entityType : Option String) (entity : SSEntity) (specifier : String) :
    Except JSErr String :=
  if entityType = some "FFmpegInput" then
    .ok (entity.inputLabel ++ ":" ++ specifier)
  else if entityType = some "FilterChain" then do
    let pad ← entity.getOutputPad specifier
    .ok ("[" ++ pad ++ "]")
  else
    .ok specifier

/-- A constructed FFmpegStreamSpecifier: stored entity, specifier string, and
the entity type tag read at construction time. -/
structure FFmpegStreamSpecifier where
  entity : SSEntity
  specifier : String
  entityType : Option String

/-- Embeds the FFmpegStreamSpecifier constructor
(src/lib/ffmpeg_stream_specifier.js lines 25-38): store the entity, coerce
the specifier to a string (the embedding takes it already coerced), read the
entity type; throw InvalidEntity when the type tag is undefined; then eagerly
render once, converting a render failure into an InvalidSpecifier error. -/
def FFmpegStreamSpecifier.make (entity : SSEntity) (specifier : String) :
    Except JSErr FFmpegStreamSpecifier :=
  let entityType := entity.tag
  if entityType = none then
    .error .invalidEntity
  else
    match specRender entityType entity specifier with
    | .error _ => .error .invalidSpecifier
    | .ok _ => .ok ⟨entity, specifier, entityType⟩

/-- The rendering `s.toString()` of a constructed specifier as used by
FFmpegOutput.toCommandArray.  The error branch is unreachable for specifiers
produced by `FFmpegStreamSpecifier.make`, which validated the rendering at
construction time. -/
def FFmpegStreamSpecifier.render (s : FFmpegStreamSpecifier) : String :=
  match specRender s.entityType s.entity s.specifier with
  | .ok r => r
  | .error _ => ""

/-! ## FFmpegOutput (src/lib/ffmpeg_output.js) -/

/-- An element of an output's `streams` array.  Because the element-type
check in validateStreams is inoperative (see `validateStreams` below), any JS
value can end up in the array; `spec` is a genuine stream specifier and
`other` any other value. -/
inductive StreamItem where
  | spec (s : FFmpegStreamSpecifier)
  | other (v : JSArg)

/-- JS truthiness of a stream-array element (objects are truthy; false, 0,
empty string, null and undefined are falsy). -/
def StreamItem.truthy : StreamItem → Bool
  | .spec _ => true
  | .other v =>
    match v with
    | .null => false
    | .undef => false
    | .bool b => b
    | .str s => s ≠ ""
    | .num n => n ≠ 0
    | _ => true

/-- The rendering `${s.toString()}` of a stream-array element. -/
def StreamItem.render : StreamItem → String
  | .spec s => s.render
  | .other v => v.renderArg

/-- The JS expression `primitiveBoolean instanceof FFmpegStreamSpecifier`:
a primitive is an instance of no class, so this is false for every operand. -/
def boolInstanceofSpecifier (_b : Bool) : Bool := false

/-- The per-element test `!i instanceof FFmpegStreamSpecifier` from
validateStreams (src/lib/ffmpeg_output.js line 93).  JS operator precedence
parses this as `(!i) instanceof FFmpegStreamSpecifier`: the negation produces
a primitive boolean, which is never an instance of the class. -/
def elementCheck (i : StreamItem) : Bool :=
  boolInstanceofSpecifier (!i.truthy)

/-- The argument passed to addStreams / validateStreams: either a JS Array of
elements or any non-array value. -/
inductive StreamsArg where
  | array (items : List StreamItem)
  | notArray (v : JSArg)

/-- Embeds FFmpegOutput.validateStreams (src/lib/ffmpeg_output.js lines
89-97): a non-array argument raises InvalidArgument; otherwise the
(inoperative, see `elementCheck`) element test runs and the list is returned
unchanged. -/
def validateStreams : StreamsArg → Except JSErr (List StreamItem)
  | .notArray _ => .error .invalidArgument
  | .array items =>
    if items.any elementCheck then .error .invalidArgument else .ok items

/-- An FFmpegOutput: required url, ordered options, ordered stream items. -/
structure FFmpegOutput where
  url : String
  options : List FFmpegOption
  streams : List StreamItem

/-- Embeds FFmpegOutput.addStreams (src/lib/ffmpeg_output.js lines 69-71):
`this.streams = this.streams.concat(this.validateStreams(list))`; a
validation failure propagates before the assignment. -/
def FFmpegOutput.addStreams (o : FFmpegOutput) (arg : StreamsArg) :
    Except JSErr FFmpegOutput :=
  (validateStreams arg).map (fun items => { o with streams := o.streams ++ items })

/-- Embeds FFmpegOutput.toCommandArray (src/lib/ffmpeg_output.js lines
34-45): each option's tokens in order, then `['-map', s.toString()]` for each
stream in order, then the url pushed last. -/
def FFmpegOutput.toCommandArray (o : FFmpegOutput) : List String :=
  (o.options.map FFmpegOption.toCommandArray).flatten
    ++ (o.streams.map (fun s => ["-map", s.render])).flatten
    ++ [o.url]

/-! ## FFmpegCommand rendering (src/lib/ffmpeg_command.js) -/

/-- An FFmpegCommand's render-relevant state: the global options Map (each
value rendered to `none` for null/undefined or `some` of its toString),
the registered inputs (each embedded as its toCommandArray segment, since
ffmpeg_input.js is outside the provided sources), the optional filter graph,
and the registered outputs. -/
structure FFmpegCommand where
  options : List (String × Option String)
  inputs : List (List String)
  filterGraph : Option FilterGraph
  outputs : List FFmpegOutput

/-- Embeds FFmpegCommand.addInput (src/lib/ffmpeg_command.js lines 49-52),
restricted to its render-relevant effect: the input is appended.  (The
inputLabel assignment affects only the input object itself, abstracted here
as its token segment.) -/
def FFmpegCommand.addInput (c : FFmpegCommand) (seg : List String) : FFmpegCommand :=
  { c with inputs := c.inputs ++ [seg] }

/-- Embeds FFmpegCommand.addOutput (src/lib/ffmpeg_command.js lines 59-61). -/
def FFmpegCommand.addOutput (c : FFmpegCommand) (o : FFmpegOutput) : FFmpegCommand :=
  { c with outputs := c.outputs ++ [o] }

/-- Embeds FFmpegCommand.addFilterChain (src/lib/ffmpeg_command.js lines
68-74): create a fresh empty graph when none exists yet, then add the chain
to the graph. -/
def FFmpegCommand.addFilterChain (c : FFmpegCommand) (fc : FilterChain) : FFmpegCommand :=
  match c.filterGraph with
  | none => { c with filterGraph := some ((FilterGraph.mk []).addFilterChain fc) }
  | some g => { c with filterGraph := some (g.addFilterChain fc) }

/-- The global-options portion of FFmpegCommand.toCommand
(src/lib/ffmpeg_command.js lines 129-134): push `-opt`, and the value's
toString when the value is neither null nor undefined. -/
def globalOptionTokens (opts : List (String × Option String)) : List String :=
  (opts.map (fun p =>
    match p.2 with
    | none => ["-" ++ p.1]
    | some v => ["-" ++ p.1, v])).flatten

/-- Embeds the args list built by FFmpegCommand.toCommand
(src/lib/ffmpeg_command.js lines 125-149): global options, then each input's
command array in order, then `-filter_complex <graph string>` exactly when
the filter graph is defined, then each output's command array in order.
(The accompanying `command` field is the configured ffmpeg binary path and is
not modelled.) -/
def FFmpegCommand.toCommandArgs (c : FFmpegCommand) : List String :=
  globalOptionTokens c.options
    ++ c.inputs.flatten
    ++ (match c.filterGraph with
        | none => []
        | some g => ["-filter_complex", g.render])
    ++ (c.outputs.map FFmpegOutput.toCommandArray).flatten

/-- A builder operation on a command object, for stating properties over all
construction sequences. -/
inductive CmdOp where
  | addInput (seg : List String)
  | addOutput (o : FFmpegOutput)
  | addFilterChain (fc : FilterChain)

/-- Run a sequence of builder operations on a command state. -/
def runOps (c : FFmpegCommand) : List CmdOp → FFmpegCommand
  | [] => c
  | .addInput seg :: ops => runOps (c.addInput seg) ops
  | .addOutput o :: ops => runOps (c.addOutput o) ops
  | .addFilterChain fc :: ops => runOps (c.addFilterChain fc) ops

/-- A fresh command with the given global options
(src/lib/ffmpeg_command.js lines 27-42). -/
def initCmd (opts : List (String × Option String)) : FFmpegCommand :=
  ⟨opts, [], none, []⟩

/-- The input segments registered by a sequence of builder operations. -/
def inputSegsOf (ops : List CmdOp) : List (List String) :=
  ops.filterMap (fun op => match op with | .addInput seg => some seg | _ => none)

/-- The outputs registered by a sequence of builder operations. -/
def outputsOf (ops : List CmdOp) : List FFmpegOutput :=
  ops.filterMap (fun op => match op with | .addOutput o => some o | _ => none)

/-- The filter chains added by a sequence of builder operations. -/
def chainsOf (ops : List CmdOp) : List FilterChain :=
  ops.filterMap (fun op => match op with | .addFilterChain fc => some fc | _ => none)

/-! ## Graph / chain ownership state (src/lib/filter_graph.js lines 28-34)

The mutable heap effects of FilterGraph.addFilterChain: graphs and chains are
identified by heap identities (here natural numbers); each graph holds a list
of chain ids (`this.chains`), each chain holds an optional graph id
(`chain.filterGraph`). -/

/-- The heap state relevant to chain ownership: for every graph id its chains
array, for every chain id its filterGraph back-reference. -/
structure GraphsState where
  graphChains : Nat → List Nat
  chainBackref : Nat → Option Nat

/-- The initial heap: every graph has an empty chains array, no chain has a
back-reference (src/lib/filter_graph.js lines 18-20). -/
def GraphsState.init : GraphsState :=
  ⟨fun _ => [], fun _ => none⟩

/-- Embeds FilterGraph.addFilterChain (src/lib/filter_graph.js lines 28-34)
as a heap update: `this.chains.push(chain); chain.filterGraph = this`.
Nothing else changes: in particular the chain is not removed from any other
graph's chains array. -/
def GraphsState.addFilterChain (st : GraphsState) (g c : Nat) : GraphsState :=
  ⟨fun g2 => if g2 = g then st.graphChains g ++ [c] else st.graphChains g2,
   fun c2 => if c2 = c then some g else st.chainBackref c2⟩

/-- Run a sequence of addFilterChain calls, each given as a pair
(graph id, chain id). -/
def GraphsState.runAdds (st : GraphsState) : List (Nat × Nat) → GraphsState
  | [] => st
  | (g, c) :: ops => (st.addFilterChain g c).runAdds ops

/-! ## FFmpegProgressEmitter (src/lib/ffmpeg_progress_emitter.js) -/

/-- A JS number arising in the progress parser, represented exactly as the
decimal rational `mant / 10 ^ scale`.  All numbers these code paths produce
(parsed decimal literals and their divisions by 1000) are decimal rationals,
so this representation is exact; IEEE float rounding is outside the model.
The representation is not unique (5 is ⟨5, 0⟩ or ⟨50, 1⟩); numeric equality
is `jsNumEq` below. -/
structure JSNum where
  mant : Int
  scale : Nat
deriving DecidableEq, Repr

/-- JS numeric equality of two decimal rationals, by cross-multiplication:
`a.mant / 10^a.scale = b.mant / 10^b.scale`. -/
def jsNumEq (a b : JSNum) : Bool :=
  a.mant * (10 : Int) ^ b.scale = b.mant * (10 : Int) ^ a.scale

/-- Exact division of a JS decimal number by 1000. -/
def JSNum.divThousand (x : JSNum) : JSNum :=
  ⟨x.mant, x.scale + 3⟩

/-- A value stored in the progress data objects: a JS number, a string, or
NaN (which can arise from the out_time_ms fix-up when the operand does not
coerce to a number). -/
inductive PVal where
  | num (x : JSNum)
  | str (s : String)
  | nan
deriving DecidableEq, Repr

/-- JS truthiness of a stored progress value (undefined, handled at lookup
sites as `Option.none`, is falsy; 0, the empty string and NaN are falsy). -/
def PVal.truthy : PVal → Bool
  | .num x => x.mant ≠ 0
  | .str s => s ≠ ""
  | .nan => false

/-- JS strict equality `===` on stored progress values: number-to-number is
numeric equality, string-to-string is string equality, NaN is equal to
nothing (including itself), mixed types are unequal. -/
def pvalStrictEq : PVal → PVal → Bool
  | .num a, .num b => jsNumEq a b
  | .str a, .str b => a = b
  | _, _ => false

/-- The six characters of the JS `\s` class relevant to ASCII input (space,
tab, newline, carriage return, vertical tab, form feed); Unicode whitespace
is not modelled since the protocol is ASCII. -/
def jsWhite (c : Char) : Bool :=
  c = ' ' || c = '\t' || c = '\n' || c = '\r' || c = '\x0b' || c = '\x0c'

/-- JS String.prototype.trim on the modelled whitespace class. -/
def jsTrim (s : String) : String :=
  ⟨(s.data.dropWhile jsWhite).reverse.dropWhile jsWhite |>.reverse⟩

/-- Digit-string value: `some` of the numeric value when the character list
is nonempty and all digits, else `none`. -/
def digitsVal : List Char → Option ℕ
  | [] => none
  | cs =>
    if cs.all Char.isDigit then
      some (cs.foldl (fun a c => a * 10 + (c.toNat - 48)) 0)
    else none

/-- Value of an unsigned decimal literal `digits`, `digits.digits`,
`digits.` or `.digits` (at least one digit overall), as accepted by JS
number coercion; `none` otherwise.  The value is the exact decimal
`(intVal * 10^fracLen + fracVal) / 10^fracLen`. -/
def decLitVal (cs : List Char) : Option JSNum :=
  let intPart := cs.takeWhile (· ≠ '.')
  let rest := cs.dropWhile (· ≠ '.')
  match rest with
  | [] => (digitsVal intPart).map (fun n => ⟨(n : Int), 0⟩)
  | '.' :: frac =>
    if frac.all Char.isDigit ∧ intPart.all Char.isDigit ∧ (intPart ≠ [] ∨ frac ≠ []) then
      some ⟨((intPart.foldl (fun a c => a * 10 + (c.toNat - 48)) 0) * 10 ^ frac.length
          + frac.foldl (fun a c => a * 10 + (c.toNat - 48)) 0 : Nat), frac.length⟩
    else none
  | _ => none

/-- Model of JS string-to-number coercion `Number(s)` restricted to signed
decimal literals: the trimmed empty string is 0; an optional single sign
followed by a decimal literal yields its value; anything else (exponents,
hex, Infinity, garbage) yields `none`, standing for NaN.  (Exponent and
radix forms cannot be produced by the values this code divides, so the NaN
approximation for them is inconsequential.) -/
def jsStringToNumber (s : String) : Option JSNum :=
  let t := (jsTrim s).data
  match t with
  | [] => some ⟨0, 0⟩
  | '-' :: rest => (decLitVal rest).map (fun x => ⟨-x.mant, x.scale⟩)
  | '+' :: rest => decLitVal rest
  | _ => decLitVal t

/-- The division `v / 1000` from the out_time_ms fix-up
(src/lib/ffmpeg_progress_emitter.js line 133): exact on numbers; a string
operand is coerced to a number first, NaN-producing when the coercion
fails. -/
def PVal.divThousand : PVal → PVal
  | .num x => .num x.divThousand
  | .str s =>
    match jsStringToNumber s with
    | some x => .num x.divThousand
    | none => .nan
  | .nan => .nan

/-- A progress data object: an insertion-ordered association list with unique
keys, updated by `setProp`. -/
abbrev ProgressMap := List (String × PVal)

/-- Property lookup on a progress data object (`none` = undefined). -/
def ProgressMap.lookupKey : ProgressMap → String → Option PVal
  | [], _ => none
  | (k2, v) :: rest, k => if k2 = k then some v else ProgressMap.lookupKey rest k

/-- JS property assignment `obj[k] = v`: overwrite in place when the key
exists, else append (insertion order preserved). -/
def ProgressMap.setProp (m : ProgressMap) (k : String) (v : PVal) : ProgressMap :=
  if (m.lookupKey k).isSome then
    m.map (fun p => if p.1 = k then (k, v) else p)
  else
    m ++ [(k, v)]

/-- The progress emitter state (src/lib/ffmpeg_progress_emitter.js lines
22-27): the buffered log entries (text with attributed time), the committed
progress record, and the partially accumulated record. -/
structure PState where
  logBuffer : List (String × PVal)
  progressData : ProgressMap
  partialData : ProgressMap
deriving DecidableEq, Repr

/-- The fresh emitter state (src/lib/ffmpeg_progress_emitter.js constructor;
`partialData` embeds the source field `partialProgressData`). -/
def PState.init : PState := ⟨[], [], []⟩

/-- Embeds lastMediaTime (src/lib/ffmpeg_progress_emitter.js lines 63-68):
`progressData.out_time` when present, else the string "0". -/
def PState.lastMediaTime (st : PState) : PVal :=
  match st.progressData.lookupKey "out_time" with
  | some v => v
  | none => .str "0"

/-- The out_time_ms fix-up from _emitUpdateEvent
(src/lib/ffmpeg_progress_emitter.js lines 129-134): when both out_time_ms
and out_time_us are present, truthy and strictly equal, out_time_ms is
reassigned to out_time_us / 1000. -/
def fixupRecord (pd : ProgressMap) : ProgressMap :=
  match pd.lookupKey "out_time_ms", pd.lookupKey "out_time_us" with
  | some ms, some us =>
    if ms.truthy && us.truthy && pvalStrictEq ms us then
      pd.setProp "out_time_ms" us.divThousand
    else pd
  | _, _ => pd

/-- Embeds _emitUpdateEvent (src/lib/ffmpeg_progress_emitter.js lines
127-145): apply the fix-up to the partial record, replace progressData with a
shallow copy of it, clear the partial record, and emit one update event
carrying the new progressData.  Events are returned as the list of emitted
payloads. -/
def PState.emitUpdateEvent (st : PState) : PState × List ProgressMap :=
  let pd := fixupRecord st.partialData
  ({ st with progressData := pd, partialData := [] }, [pd])

/-- Embeds the numRegExp test `/^-?\d+(?:\.\d+)?$/`
(src/lib/ffmpeg_progress_emitter.js line 107): an optional minus sign, one
or more digits, optionally a dot followed by one or more digits.  (The
tested string is always the trimmed progress value, so the JS quirk of `$`
matching before a final newline cannot fire.) -/
def numRegExpTest (s : String) : Bool :=
  let cs := match s.data with
    | '-' :: rest => rest
    | cs => cs
  let intPart := cs.takeWhile (· ≠ '.')
  let rest := cs.dropWhile (· ≠ '.')
  match rest with
  | [] => decide (intPart ≠ []) && intPart.all Char.isDigit
  | '.' :: frac =>
    decide (intPart ≠ []) && intPart.all Char.isDigit
      && decide (frac ≠ []) && frac.all Char.isDigit && decide (¬ frac.contains '.')
  | _ => false

/-- The exact value of a string accepted by `numRegExpTest`, as parsed by
`parseFloat` (src/lib/ffmpeg_progress_emitter.js line 114).  On the accepted
grammar this coincides with JS string-to-number coercion; the fallback 0 is
unreachable under the regex guard. -/
def parseNumLit (s : String) : JSNum :=
  match jsStringToNumber s with
  | some x => x
  | none => ⟨0, 0⟩

/-- Character-list splitting at a separator, with empty parts kept, as in JS
String.prototype.split. -/
def splitChars (sep : Char) : List Char → List (List Char)
  | [] => [[]]
  | c :: rest =>
    let r := splitChars sep rest
    if c = sep then [] :: r
    else
      match r with
      | h :: t => (c :: h) :: t
      | [] => [[c]]

/-- The JS expression `p.split(sep)` as a list of strings. -/
def jsSplit (sep : Char) (p : String) : List String :=
  (splitChars sep p.data).map String.mk

/-- Embeds _parseProgress (src/lib/ffmpeg_progress_emitter.js lines
106-118) on the trimmed chunk: split at `=`; on the key "progress" perform
record completion; otherwise trim the value, parse it as a number when it
matches numRegExp, and store it in the partial record under the key. -/
def PState.parseProgress (st : PState) (p : String) : PState × List ProgressMap :=
  let parts := jsSplit '=' p
  let progressKey := parts.headD ""
  if progressKey = "progress" then
    st.emitUpdateEvent
  else
    let progressValue := jsTrim (parts.getD 1 "")
    let v := if numRegExpTest progressValue then PVal.num (parseNumLit progressValue)
             else PVal.str progressValue
    ({ st with partialData := st.partialData.setProp progressKey v }, [])

/-- Embeds the test `/\r$/.test(chunkString)`
(src/lib/ffmpeg_progress_emitter.js line 86).  In JS, `$` without the
multiline flag matches at the end of the string or just before a final
newline, so the test accepts strings ending in a carriage return and strings
ending in carriage return + newline. -/
def crTest (s : String) : Bool :=
  match s.data.getLast? with
  | some '\r' => true
  | some '\n' =>
    match s.data.dropLast.getLast? with
    | some '\r' => true
    | _ => false
  | _ => false

/-- Embeds the test `/^[^\s=]+=[^=]+\n$/.test(chunkString)`
(src/lib/ffmpeg_progress_emitter.js line 89): a nonempty run of characters
that are neither whitespace nor `=`, then `=`, then a nonempty run of
non-`=` characters, then a newline, anchored at both ends (`$` again also
matching before a final newline).  Equivalently: the part before the first
`=` is nonempty and free of whitespace, an `=` is present, and the part
after it is free of `=`, at least two characters long, and ends in a
newline. -/
def kvLineTest (s : String) : Bool :=
  let cs := s.data
  let key := cs.takeWhile (· ≠ '=')
  let rest := (cs.dropWhile (· ≠ '=')).tail
  decide (key ≠ []) && key.all (fun c => !jsWhite c)
    && cs.contains '='
    && rest.all (· ≠ '=')
    && decide (rest.length ≥ 2)
    && decide (rest.getLast? = some '\n')

/-- Embeds _write (src/lib/ffmpeg_progress_emitter.js lines 84-98) on one
chunk: a chunk matching `/\r$/` is dropped entirely; a chunk matching the
key=value line pattern is trimmed and handed to _parseProgress; any other
chunk is appended to the log buffer with the last-known media time. -/
def PState.writeChunk (st : PState) (chunk : String) : PState × List ProgressMap :=
  if crTest chunk then
    (st, [])
  else if kvLineTest chunk then
    st.parseProgress (jsTrim chunk)
  else
    ({ st with logBuffer := st.logBuffer ++ [(chunk, st.lastMediaTime)] }, [])

/-- Feed a sequence of chunks, accumulating the emitted update events. -/
def PState.writeChunks (st : PState) : List String → PState × List ProgressMap
  | [] => (st, [])
  | chunk :: rest =>
    let (st2, evs) := st.writeChunk chunk
    let (st3, evs2) := st2.writeChunks rest
    (st3, evs ++ evs2)

/-! ## Auxiliary definitions for the statements -/

/-- Success test for an embedded JS computation (no exception raised). -/
def exOk {α : Type} : Except JSErr α → Bool
  | .ok _ => true
  | .error _ => false

/-- The filter graph of a command after adding the given chains to an
existing graph state: absent stays absent when no chain is added, a fresh
graph collects the chains otherwise, an existing graph is extended. -/
def graphAfter : Option FilterGraph → List FilterChain → Option FilterGraph
  | none, cs => if cs = [] then none else some ⟨cs⟩
  | some g, cs => some ⟨g.chains ++ cs⟩

/-- The chains added to graph `g` by an operation sequence, in call order,
with multiplicity. -/
def addsTo (g : Nat) : List (Nat × Nat) → List Nat
  | [] => []
  | (g2, c) :: rest => if g2 = g then c :: addsTo g rest else addsTo g rest

/-- True when the progress record holds, under the given key, a JS number
numerically equal to `x` (JS number representations are not unique, so
value readings compare numerically). -/
def lookupNumEq (m : ProgressMap) (k : String) (x : JSNum) : Bool :=
  match m.lookupKey k with
  | some (.num v) => jsNumEq v x
  | _ => false

/-- The graph id of the last addFilterChain call targeting chain `c` in an
operation sequence (`none` when the chain was never added). -/
def lastAdd (c : Nat) : List (Nat × Nat) → Option Nat
  | [] => none
  | (g, c2) :: rest =>
    match lastAdd c rest with
    | some g2 => some g2
    | none => if c2 = c then some g else none

/-! ## Claim theorems -/

/-- C10: FilterGraph.wrap is idempotent: wrapping the result of a wrap
returns it unchanged, for graphs, chains, nodes and arbitrary non-filter
values alike. -/
theorem c10_wrap_idempotent {α : Type} (x : WrapVal α) :
    FilterGraph.wrap (FilterGraph.wrap x) = FilterGraph.wrap x := by
  cases x <;> rfl

/-- C2: an output with url u, options opts and streams [s0, s1, s1] renders
exactly the options' tokens in option order, then one `-map` / rendering
pair per stream specifier in stream order (three pairs here, the duplicate
rendering identically), then the single trailing url token. -/
theorem c2_output_token_order (u : String) (opts : List FFmpegOption)
    (s0 s1 : FFmpegStreamSpecifier) :
    (FFmpegOutput.mk u opts [.spec s0, .spec s1, .spec s1]).toCommandArray =
      (opts.map FFmpegOption.toCommandArray).flatten
        ++ (["-map", s0.render] ++ ["-map", s1.render] ++ ["-map", s1.render])
        ++ [u] := by
  simp [FFmpegOutput.toCommandArray, StreamItem.render]

/-- C8: a chunk matching the carriage-return test is dropped entirely: no
log entry, no update event, and the whole parser state (log buffer,
committed record, partial record) is unchanged. -/
theorem c8_cr_chunk_dropped (st : PState) (chunk : String)
    (h : crTest chunk = true) :
    st.writeChunk chunk = (st, []) := by
  simp [PState.writeChunk, h]

/-- Witness for C8 at a concrete chunk and the fresh parser state. -/
theorem c8_cr_chunk_dropped_witness :
    crTest "frame=  1 fps=0.0\r" = true ∧
      PState.init.writeChunk "frame=  1 fps=0.0\r" = (PState.init, []) :=
  ⟨by decide, c8_cr_chunk_dropped PState.init "frame=  1 fps=0.0\r" (by decide)⟩

/-- C6 (code bug): addStreams on an array containing the non-specifier
element 42 succeeds and appends the element, because the per-element check
`!i instanceof FFmpegStreamSpecifier` tests a primitive boolean and is
therefore always false; the documented InvalidArgument error is never
raised for bad elements. -/
theorem c6_addStreams_accepts_non_specifier :
    FFmpegOutput.addStreams ⟨"out.mov", [], []⟩ (.array [.other (.num 42)]) =
      .ok ⟨"out.mov", [], [.other (.num 42)]⟩ := rfl

/-- C5 (counterexample): an owner whose type tag is the defined-but-
unrecognized string "FFmpegOutput" does NOT make construction fail — the
constructor only rejects an undefined tag, and rendering falls back to the
raw specifier — refuting the claim that construction fails for every owner
whose tag is defined but is neither of the two recognized kinds. -/
theorem c5_unrecognized_tag_constructs :
    exOk (FFmpegStreamSpecifier.make
      ⟨some "FFmpegOutput", "0", fun _ => Except.error .invalidSpecifier⟩ "0") = true := rfl

/-- C5 (amended): construction fails with InvalidEntity exactly when the
owner's type tag is undefined; an owner with any defined tag other than the
two recognized kinds constructs successfully (storing the entity, specifier
and tag, with rendering falling back to the raw specifier). -/
theorem c5_tag_check (e : SSEntity) (s : String) :
    (e.tag = none → FFmpegStreamSpecifier.make e s = .error .invalidEntity)
      ∧ (∀ t, e.tag = some t → t ≠ "FFmpegInput" → t ≠ "FilterChain" →
          FFmpegStreamSpecifier.make e s = .ok ⟨e, s, some t⟩) := by
  constructor
  · intro h
    simp [FFmpegStreamSpecifier.make, h]
  · intro t ht h1 h2
    simp [FFmpegStreamSpecifier.make, ht, specRender, h1, h2]

/-- Witness for C5 (amended) at two concrete owners: one with an undefined
tag, one with the unrecognized tag "Widget". -/
theorem c5_tag_check_witness :
    (FFmpegStreamSpecifier.make ⟨none, "", fun _ => Except.ok ""⟩ "1" = .error .invalidEntity)
      ∧ (FFmpegStreamSpecifier.make ⟨some "Widget", "x", fun _ => Except.ok "p"⟩ "1" =
          .ok ⟨⟨some "Widget", "x", fun _ => Except.ok "p"⟩, "1", some "Widget"⟩) :=
  ⟨(c5_tag_check ⟨none, "", fun _ => Except.ok ""⟩ "1").1 rfl,
   (c5_tag_check ⟨some "Widget", "x", fun _ => Except.ok "p"⟩ "1").2 "Widget" rfl
     (by decide) (by decide)⟩

/-- C3: for every recognized filter-option alias paired with a
filter-wrappable argument (graph, chain or node), the constructed option's
stored name is `filter_complex` regardless of the alias; for a plain string
argument the supplied name is stored unchanged, for every name. -/
theorem c3_alias_normalization :
    (∀ name ∈ FILTER_OPTIONS,
      (∀ g : FilterGraph,
          (FFmpegOption.make name (.graph g)).map FFmpegOption.name = .ok "filter_complex")
        ∧ (∀ c : FilterChain,
            (FFmpegOption.make name (.chain c)).map FFmpegOption.name = .ok "filter_complex")
        ∧ (∀ n : FilterNode,
            (FFmpegOption.make name (.node n)).map FFmpegOption.name = .ok "filter_complex"))
      ∧ (∀ name s : String,
          (FFmpegOption.make name (.str s)).map FFmpegOption.name = .ok name) := by
  constructor
  · intro name hmem
    refine ⟨fun g => ?_, fun c => ?_, fun n => ?_⟩ <;>
      simp [FFmpegOption.make, optionValidate, hmem, JSArg.wrapIsFilterGraph,
        JSArg.toWrapVal, FilterGraph.wrap, Except.map, Bind.bind, Except.bind]
  · intro name s
    simp [FFmpegOption.make, optionValidate, JSArg.wrapIsFilterGraph,
      JSArg.toWrapVal, FilterGraph.wrap, Except.map, Bind.bind, Except.bind]

/-- Witness for C3 at the alias "vf" with a concrete one-chain graph and at
a non-wrappable string argument. -/
theorem c3_alias_normalization_witness :
    ("vf" ∈ FILTER_OPTIONS
      ∧ (FFmpegOption.make "vf" (.graph ⟨[⟨[⟨"scale", .positional ["640", "-1"]⟩]⟩]⟩)).map
          FFmpegOption.name = .ok "filter_complex")
      ∧ (FFmpegOption.make "vf" (.str "scale=640:-1")).map FFmpegOption.name = .ok "vf" :=
  ⟨⟨by decide,
    (c3_alias_normalization.1 "vf" (by decide)).1 ⟨[⟨[⟨"scale", .positional ["640", "-1"]⟩]⟩]⟩⟩,
   c3_alias_normalization.2 "vf" "scale=640:-1"⟩

/-- C7: constructing an option whose argument is a JS Array or a JS Map
fails with InvalidArgument for every option name, while an argument that is
null, a string, or any value with a usable string conversion (number,
graph, chain, node, or other stringable object) constructs successfully. -/
theorem c7_collection_args_rejected :
    (∀ (name : String) (es : List String),
        FFmpegOption.make name (.arr es) = .error .invalidArgument)
      ∧ (∀ (name : String) (ps : List (String × String)),
          FFmpegOption.make name (.kvmap ps) = .error .invalidArgument)
      ∧ (∀ name : String, exOk (FFmpegOption.make name .null) = true)
      ∧ (∀ name s : String, exOk (FFmpegOption.make name (.str s)) = true)
      ∧ (∀ name s : String, exOk (FFmpegOption.make name (.stringable s)) = true)
      ∧ (∀ (name : String) (n : Int), exOk (FFmpegOption.make name (.num n)) = true)
      ∧ (∀ (name : String) (g : FilterGraph), exOk (FFmpegOption.make name (.graph g)) = true)
      ∧ (∀ (name : String) (c : FilterChain), exOk (FFmpegOption.make name (.chain c)) = true)
      ∧ (∀ (name : String) (n : FilterNode), exOk (FFmpegOption.make name (.node n)) = true) := by
  refine ⟨fun name es => ?_, fun name ps => ?_, fun name => ?_, fun name s => ?_,
    fun name s => ?_, fun name n => ?_, fun name g => ?_, fun name c => ?_, fun name n => ?_⟩ <;>
    simp [FFmpegOption.make, optionValidate, exOk, Except.map, Bind.bind, Except.bind]

/-! ### Command builder state characterization (toward C1) -/

theorem addFilterChain_inputs (c : FFmpegCommand) (fc : FilterChain) :
    (c.addFilterChain fc).inputs = c.inputs := by
  unfold FFmpegCommand.addFilterChain
  cases c.filterGraph <;> rfl

theorem addFilterChain_outputs (c : FFmpegCommand) (fc : FilterChain) :
    (c.addFilterChain fc).outputs = c.outputs := by
  unfold FFmpegCommand.addFilterChain
  cases c.filterGraph <;> rfl

theorem addFilterChain_options (c : FFmpegCommand) (fc : FilterChain) :
    (c.addFilterChain fc).options = c.options := by
  unfold FFmpegCommand.addFilterChain
  cases c.filterGraph <;> rfl

theorem addFilterChain_filterGraph (c : FFmpegCommand) (fc : FilterChain) :
    (c.addFilterChain fc).filterGraph = graphAfter c.filterGraph [fc] := by
  unfold FFmpegCommand.addFilterChain
  cases c.filterGraph <;> simp [graphAfter, FilterGraph.addFilterChain]

theorem graphAfter_cons (go : Option FilterGraph) (fc : FilterChain) (cs : List FilterChain) :
    graphAfter go (fc :: cs) = graphAfter (graphAfter go [fc]) cs := by
  cases go <;> simp [graphAfter]

theorem runOps_options (c : FFmpegCommand) (ops : List CmdOp) :
    (runOps c ops).options = c.options := by
  induction ops generalizing c with
  | nil => rfl
  | cons op rest ih =>
    cases op with
    | addInput seg =>
      rw [show runOps c (CmdOp.addInput seg :: rest) = runOps (c.addInput seg) rest from rfl,
        ih (c.addInput seg)]
      rfl
    | addOutput o =>
      rw [show runOps c (CmdOp.addOutput o :: rest) = runOps (c.addOutput o) rest from rfl,
        ih (c.addOutput o)]
      rfl
    | addFilterChain fc =>
      rw [show runOps c (CmdOp.addFilterChain fc :: rest) = runOps (c.addFilterChain fc) rest
          from rfl,
        ih (c.addFilterChain fc), addFilterChain_options]

theorem graphAfter_nil (go : Option FilterGraph) : graphAfter go [] = go := by
  cases go <;> simp [graphAfter]

theorem runOps_inputs (c : FFmpegCommand) (ops : List CmdOp) :
    (runOps c ops).inputs = c.inputs ++ inputSegsOf ops := by
  induction ops generalizing c with
  | nil => simp [runOps, inputSegsOf]
  | cons op rest ih =>
    cases op with
    | addInput seg =>
      rw [show runOps c (CmdOp.addInput seg :: rest) = runOps (c.addInput seg) rest from rfl,
        ih (c.addInput seg)]
      simp [FFmpegCommand.addInput, inputSegsOf]
    | addOutput o =>
      rw [show runOps c (CmdOp.addOutput o :: rest) = runOps (c.addOutput o) rest from rfl,
        ih (c.addOutput o)]
      simp [FFmpegCommand.addOutput, inputSegsOf]
    | addFilterChain fc =>
      rw [show runOps c (CmdOp.addFilterChain fc :: rest) = runOps (c.addFilterChain fc) rest
          from rfl,
        ih (c.addFilterChain fc), addFilterChain_inputs]
      simp [inputSegsOf]

theorem runOps_outputs (c : FFmpegCommand) (ops : List CmdOp) :
    (runOps c ops).outputs = c.outputs ++ outputsOf ops := by
  induction ops generalizing c with
  | nil => simp [runOps, outputsOf]
  | cons op rest ih =>
    cases op with
    | addInput seg =>
      rw [show runOps c (CmdOp.addInput seg :: rest) = runOps (c.addInput seg) rest from rfl,
        ih (c.addInput seg)]
      simp [FFmpegCommand.addInput, outputsOf]
    | addOutput o =>
      rw [show runOps c (CmdOp.addOutput o :: rest) = runOps (c.addOutput o) rest from rfl,
        ih (c.addOutput o)]
      simp [FFmpegCommand.addOutput, outputsOf]
    | addFilterChain fc =>
      rw [show runOps c (CmdOp.addFilterChain fc :: rest) = runOps (c.addFilterChain fc) rest
          from rfl,
        ih (c.addFilterChain fc), addFilterChain_outputs]
      simp [outputsOf]

theorem runOps_filterGraph (c : FFmpegCommand) (ops : List CmdOp) :
    (runOps c ops).filterGraph = graphAfter c.filterGraph (chainsOf ops) := by
  induction ops generalizing c with
  | nil => simp [runOps, chainsOf, graphAfter_nil]
  | cons op rest ih =>
    cases op with
    | addInput seg =>
      rw [show runOps c (CmdOp.addInput seg :: rest) = runOps (c.addInput seg) rest from rfl,
        ih (c.addInput seg)]
      simp [FFmpegCommand.addInput, chainsOf]
    | addOutput o =>
      rw [show runOps c (CmdOp.addOutput o :: rest) = runOps (c.addOutput o) rest from rfl,
        ih (c.addOutput o)]
      simp [FFmpegCommand.addOutput, chainsOf]
    | addFilterChain fc =>
      rw [show runOps c (CmdOp.addFilterChain fc :: rest) = runOps (c.addFilterChain fc) rest
          from rfl,
        ih (c.addFilterChain fc), addFilterChain_filterGraph]
      rw [show chainsOf (CmdOp.addFilterChain fc :: rest) = fc :: chainsOf rest from rfl]
      exact (graphAfter_cons c.filterGraph fc (chainsOf rest)).symm

/-- C1: for every command built by any sequence of addInput / addOutput /
addFilterChain operations, the rendered args are exactly: the global
options' tokens first, then each input's command-array segment in
registration order, then the two tokens `-filter_complex` and the graph's
string if and only if at least one filter chain was added (omitted entirely
otherwise), then each output's command-array segment in registration
order. -/
theorem c1_command_render_order (opts : List (String × Option String)) (ops : List CmdOp) :
    (runOps (initCmd opts) ops).toCommandArgs =
      globalOptionTokens opts
        ++ (inputSegsOf ops).flatten
        ++ (if chainsOf ops = [] then []
            else ["-filter_complex", (FilterGraph.mk (chainsOf ops)).render])
        ++ ((outputsOf ops).map FFmpegOutput.toCommandArray).flatten := by
  have h1 := runOps_options (initCmd opts) ops
  have h2 := runOps_inputs (initCmd opts) ops
  have h3 := runOps_outputs (initCmd opts) ops
  have h4 := runOps_filterGraph (initCmd opts) ops
  unfold FFmpegCommand.toCommandArgs
  rw [h1, h2, h3, h4]
  cases hcs : chainsOf ops with
  | nil => simp [initCmd, graphAfter]
  | cons a l => simp [initCmd, graphAfter]

/-! ### Chain ownership (toward C9) -/

theorem runAdds_graphChains (st : GraphsState) (ops : List (Nat × Nat)) (g : Nat) :
    (st.runAdds ops).graphChains g = st.graphChains g ++ addsTo g ops := by
  induction ops generalizing st with
  | nil => simp [GraphsState.runAdds, addsTo]
  | cons p rest ih =>
    obtain ⟨g0, c0⟩ := p
    rw [show st.runAdds ((g0, c0) :: rest) = (st.addFilterChain g0 c0).runAdds rest from rfl,
      ih (st.addFilterChain g0 c0)]
    by_cases h : g0 = g
    · subst h
      simp [GraphsState.addFilterChain, addsTo]
    · have h2 : ¬ (g = g0) := fun hgg => h hgg.symm
      simp [GraphsState.addFilterChain, addsTo, h, h2]

theorem runAdds_chainBackref (st : GraphsState) (ops : List (Nat × Nat)) (c : Nat) :
    (st.runAdds ops).chainBackref c =
      (match lastAdd c ops with
        | some g => some g
        | none => st.chainBackref c) := by
  induction ops generalizing st with
  | nil => simp [GraphsState.runAdds, lastAdd]
  | cons p rest ih =>
    obtain ⟨g0, c0⟩ := p
    rw [show st.runAdds ((g0, c0) :: rest) = (st.addFilterChain g0 c0).runAdds rest from rfl,
      ih (st.addFilterChain g0 c0)]
    rw [show lastAdd c ((g0, c0) :: rest) =
        (match lastAdd c rest with
          | some g2 => some g2
          | none => if c0 = c then some g0 else none) from rfl]
    cases hl : lastAdd c rest with
    | some g2 => simp
    | none =>
      by_cases h : c0 = c
      · subst h
        simp [GraphsState.addFilterChain]
      · have h2 : ¬ (c = c0) := fun hcc => h hcc.symm
        simp [GraphsState.addFilterChain, h, h2]

/-- C9 (counterexample): adding the same chain (id 5) to two distinct graphs
(ids 0 and 1) leaves the chain in both graphs' chain lists, and its
back-reference points only to the second graph while the first still holds
it — refuting exclusive ownership transfer. -/
theorem c9_shared_chain_counterexample :
    5 ∈ (GraphsState.init.runAdds [(0, 5), (1, 5)]).graphChains 0
      ∧ 5 ∈ (GraphsState.init.runAdds [(0, 5), (1, 5)]).graphChains 1
      ∧ (GraphsState.init.runAdds [(0, 5), (1, 5)]).chainBackref 5 = some 1
      ∧ (0 : Nat) ≠ 1 := by
  refine ⟨?_, ?_, ?_, by decide⟩ <;> decide

/-- C9 (amended): addFilterChain appends the chain to the adding graph's
chain list and sets the chain's back-reference to that graph; after any
sequence of calls from the initial state, every graph's chain list consists
exactly of the chains added to it, in call order and with multiplicity (a
chain added to several graphs stays in all their lists — ownership is not
exclusive), and every chain's back-reference points to the graph of the
most recent call that added it (none if never added). -/
theorem c9_ownership_amended (ops : List (Nat × Nat)) :
    (∀ g : Nat, (GraphsState.init.runAdds ops).graphChains g = addsTo g ops)
      ∧ (∀ c : Nat, (GraphsState.init.runAdds ops).chainBackref c = lastAdd c ops) := by
  constructor
  · intro g
    simpa [GraphsState.init] using runAdds_graphChains GraphsState.init ops g
  · intro c
    rw [runAdds_chainBackref GraphsState.init ops c]
    cases lastAdd c ops <;> simp [GraphsState.init]

/-! ### Progress record completion (toward C4) -/

theorem lookup_map_overwrite (m : ProgressMap) (k : String) (v : PVal)
    (h : (m.lookupKey k).isSome) :
    ProgressMap.lookupKey (m.map fun p => if p.1 = k then (k, v) else p) k = some v := by
  induction m with
  | nil => simp [ProgressMap.lookupKey] at h
  | cons p t ih =>
    obtain ⟨k1, v1⟩ := p
    rw [List.map_cons]
    by_cases hp : k1 = k
    · subst hp
      rw [show (if ((k1, v1) : String × PVal).1 = k1 then (k1, v) else (k1, v1)) = (k1, v)
          from by simp]
      simp [ProgressMap.lookupKey]
    · have h2 : (ProgressMap.lookupKey t k).isSome := by
        simpa [ProgressMap.lookupKey, hp] using h
      rw [show (if ((k1, v1) : String × PVal).1 = k then (k, v) else (k1, v1)) = (k1, v1)
          from by simp [hp]]
      simp [ProgressMap.lookupKey, hp, ih h2]

theorem lookup_append_single (m : ProgressMap) (k : String) (v : PVal)
    (h : m.lookupKey k = none) :
    ProgressMap.lookupKey (m ++ [(k, v)]) k = some v := by
  induction m with
  | nil => simp [ProgressMap.lookupKey]
  | cons p t ih =>
    by_cases hp : p.1 = k
    · simp [ProgressMap.lookupKey, hp] at h
    · have h2 : ProgressMap.lookupKey t k = none := by
        simpa [ProgressMap.lookupKey, hp] using h
      obtain ⟨k1, v1⟩ := p
      simp only [ProgressMap.lookupKey] at hp ⊢
      simp [hp, ih h2]

theorem lookupKey_setProp (m : ProgressMap) (k : String) (v : PVal) :
    (m.setProp k v).lookupKey k = some v := by
  unfold ProgressMap.setProp
  by_cases h : (m.lookupKey k).isSome
  · simp only [h, if_true, ite_true]
    exact lookup_map_overwrite m k v h
  · have hn : m.lookupKey k = none := by
      cases hl : m.lookupKey k with
      | none => rfl
      | some w => rw [hl] at h; simp at h
    simp only [h, if_false, ite_false]
    exact lookup_append_single m k v hn

theorem jsNumEq_refl (x : JSNum) : jsNumEq x x = true := by
  simp [jsNumEq]

theorem jsNumEq_zero_mant {a b : JSNum} (h : jsNumEq a b = true) (ha : a.mant = 0) :
    b.mant = 0 := by
  simp only [jsNumEq, decide_eq_true_eq] at h
  rw [ha] at h
  simp only [zero_mul] at h
  have h10 : ((10 : Int) ^ a.scale) ≠ 0 := pow_ne_zero _ (by decide)
  rcases mul_eq_zero.mp h.symm with hb | hz
  · exact hb
  · exact absurd hz h10

/-- C4: consuming a `progress=<state>` line performs record completion
exactly once: the committed record is replaced wholesale by the (fixed-up)
partial record, the partial record is cleared, and exactly one update event
carrying the new committed record is emitted; the fix-up recomputes
out_time_ms as out_time_us / 1000 whenever both fields hold numerically
equal numbers (the concrete feed out_time_ms=5000, out_time_us=5000,
progress=continue commits out_time_ms numerically equal to 5 with exactly
one event); and no other kind of consumed chunk ever emits an update
event. -/
theorem c4_progress_record_completion :
    (∀ (st : PState) (chunk : String),
        crTest chunk = false → kvLineTest chunk = true →
        (jsSplit '=' (jsTrim chunk)).headD "" = "progress" →
        st.writeChunk chunk =
          ({ st with progressData := fixupRecord st.partialData, partialData := [] },
            [fixupRecord st.partialData]))
      ∧ (∀ (pd : ProgressMap) (a b : JSNum),
          pd.lookupKey "out_time_ms" = some (.num a) →
          pd.lookupKey "out_time_us" = some (.num b) → jsNumEq a b = true →
          lookupNumEq (fixupRecord pd) "out_time_ms" b.divThousand = true)
      ∧ ((PState.init.writeChunks
            ["out_time_ms=5000\n", "out_time_us=5000\n", "progress=continue\n"]).2.length = 1
          ∧ lookupNumEq
              (PState.init.writeChunks
                ["out_time_ms=5000\n", "out_time_us=5000\n", "progress=continue\n"]).1.progressData
              "out_time_ms" ⟨5, 0⟩ = true
          ∧ (PState.init.writeChunks
              ["out_time_ms=5000\n", "out_time_us=5000\n", "progress=continue\n"]).2 =
            [(PState.init.writeChunks
              ["out_time_ms=5000\n", "out_time_us=5000\n", "progress=continue\n"]).1.progressData])
      ∧ (∀ (st : PState) (chunk : String),
          crTest chunk = true ∨ kvLineTest chunk = false ∨
            (jsSplit '=' (jsTrim chunk)).headD "" ≠ "progress" →
          (st.writeChunk chunk).2 = []) := by
  refine ⟨?_, ?_, ?_, ?_⟩
  · intro st chunk h1 h2 h3
    have h3x : (jsSplit '=' (jsTrim chunk)).head?.getD "" = "progress" := by simpa using h3
    simp [PState.writeChunk, h1, h2, PState.parseProgress, h3x, PState.emitUpdateEvent]
  · intro pd a b hms hus hab
    by_cases hz : a.mant = 0
    · have hbz : b.mant = 0 := jsNumEq_zero_mant hab hz
      have hfix : fixupRecord pd = pd := by
        simp [fixupRecord, hms, hus, PVal.truthy, hz]
      simp [lookupNumEq, hfix, hms, jsNumEq, JSNum.divThousand, hz, hbz]
    · have hb : b.mant ≠ 0 := by
        intro h0
        apply hz
        have hab2 : a.mant * (10 : Int) ^ b.scale = b.mant * (10 : Int) ^ a.scale := by
          simpa [jsNumEq] using hab
        rw [h0, zero_mul] at hab2
        rcases mul_eq_zero.mp hab2 with h1 | h2
        · exact h1
        · exact absurd h2 (pow_ne_zero _ (by decide))
      have hfix : fixupRecord pd = pd.setProp "out_time_ms" (PVal.num b.divThousand) := by
        simp [fixupRecord, hms, hus, PVal.truthy, hz, hb, pvalStrictEq, hab, PVal.divThousand]
      simp [lookupNumEq, hfix, lookupKey_setProp, jsNumEq_refl]
  · refine ⟨by decide, by decide, by decide⟩
  · intro st chunk h
    by_cases h1 : crTest chunk = true
    · simp [PState.writeChunk, h1]
    · have h1f : crTest chunk = false := by simpa using h1
      rcases h with hcr | hkv | hkey
      · exact absurd hcr h1
      · simp [PState.writeChunk, h1f, hkv]
      · by_cases h2 : kvLineTest chunk = true
        · have hkx : ¬ ((jsSplit '=' (jsTrim chunk)).head?.getD "" = "progress") := by
            simpa using hkey
          simp [PState.writeChunk, h1f, h2, PState.parseProgress, hkx]
        · have h2f : kvLineTest chunk = false := by simpa using h2
          simp [PState.writeChunk, h1f, h2f]

/-- Witness for C4 at concrete inputs: a progress line on the fresh state, a
concrete record with numerically equal numeric out_time fields, and a plain
log line emitting nothing. -/
theorem c4_progress_record_completion_witness :
    (PState.init.writeChunk "progress=end\n" =
        ({ PState.init with
            progressData := fixupRecord PState.init.partialData,
            partialData := [] },
          [fixupRecord PState.init.partialData]))
      ∧ lookupNumEq
          (fixupRecord [("out_time_ms", PVal.num ⟨7, 0⟩), ("out_time_us", PVal.num ⟨7, 0⟩)])
          "out_time_ms" (JSNum.divThousand ⟨7, 0⟩) = true
      ∧ (PState.init.writeChunk "encoder started\n").2 = [] :=
  ⟨c4_progress_record_completion.1 PState.init "progress=end\n" (by decide) (by decide)
      (by decide),
   c4_progress_record_completion.2.1
      [("out_time_ms", PVal.num ⟨7, 0⟩), ("out_time_us", PVal.num ⟨7, 0⟩)]
      ⟨7, 0⟩ ⟨7, 0⟩ (by decide) (by decide) (by decide),
   c4_progress_record_completion.2.2.2 PState.init "encoder started\n"
      (Or.inr (Or.inl (by decide)))⟩

end Fessonia
